import Mathlib

/-!
Verification development for the Mul_in_ONE conversational orchestrator.

This file gives a shallow embedding of the core pure logic of the repository
and proves / refutes the frozen behavioural claims about it:

* `memory.py` — `ConversationMemory.recent` / `as_payload` (Python slice
  semantics `self._messages[-limit:]` modelled exactly, including negative
  arguments).
* `scheduler.py` — `TurnScheduler.next_turn`; the ambient
  `random.uniform(-0.1, 0.1)` draws are modelled as an explicit rational
  supply threaded through the computation, and float arithmetic as `ℚ`.
* `service/runtime_adapter.py` — `_filter_special_tokens` (the
  `<[|｜][^|｜]*[|｜]>` single-pass `re.sub`), and the conversation loop of
  `NemoRuntimeAdapter.invoke_stream`.
* `persona_function.py` — the `_respond_stream` upstream-error
  classification.
* `service/rag_service.py` — the embedding-count adjustment and the
  pre-insert column-length safety check of `ingest_document`.
* `service/session_service.py` — `SessionRuntime._handle_adapter_event`
  and the end-of-stream tracker flush of `_worker_loop`, modelled as a
  trace of publish / persist actions.
-/

namespace MulInOne

/-! ## memory.py — `Message` and `ConversationMemory` -/

/-- Model of `memory.Message`: `(speaker, content, recipient?, timestamp)`.
The float timestamp (`time.time()`) is irrelevant to every claim and is
modelled as a rational, defaulting to `0`. -/
structure Message where
  speaker : String
  content : String
  recipient : Option String := none
  timestamp : ℚ := 0
deriving Repr, DecidableEq

/-- Model of `ConversationMemory.recent`: `return self._messages[-limit:]`.
Python slice semantics of `l[-limit:]` for an arbitrary integer `limit`:
for `limit ≥ 1` the start index is `max(len - limit, 0)`; for `limit ≤ 0`
the slice is `l[(-limit):]`, i.e. the first `min(-limit, len)` elements are
dropped. -/
def recent (msgs : List Message) (limit : Int) : List Message :=
  if 1 ≤ limit then msgs.drop (msgs.length - limit.toNat)
  else msgs.drop (-limit).toNat

/-- Model of `ConversationMemory.as_payload(limit, last_n)`: an explicit `last_n`
overrides the window; otherwise `limit ≤ 0` means the full history. -/
def asPayload (msgs : List Message) (limit : Int) (last_n : Option Int) :
    List Message :=
  let effective : Int :=
    match last_n with
    | some n => n
    | none => if limit ≤ 0 then (msgs.length : Int) else limit
  recent msgs effective

/-- Model of `ConversationMemory.get_last_message`. -/
def getLastMessage (msgs : List Message) : String :=
  match msgs.getLast? with
  | some m => m.content
  | none => ""

/-! ## scheduler.py — `PersonaState` and `TurnScheduler` -/

/-- Model of `scheduler.PersonaState`. -/
structure PersonaState where
  name : String
  proactivity : ℚ
  cooldown : Int := 1
  last_turn : Int := -10
  consecutive_speaks : Nat := 0
deriving Repr, DecidableEq

/-- The mutable fields of `TurnScheduler` (`personas` is a name-keyed
insertion-ordered dict in the source; modelled as a list with distinct
names where a claim needs the dict's key uniqueness). -/
structure SchedulerState where
  personas : List PersonaState
  max_agents : Int
  turn : Int := 0
  silence_threshold : Nat := 2
  silence_count : Nat := 0
deriving Repr, DecidableEq

/-- One draw from the random supply standing for
`random.uniform(-0.1, 0.1)`; an exhausted supply yields `0`. -/
def popRand (rand : List ℚ) : ℚ × List ℚ :=
  match rand with
  | [] => (0, [])
  | r :: rs => (r, rs)

/-- The score computation of `TurnScheduler.next_turn` for a persona that
is past its cooldown and not force-mentioned (`r` is the random draw). -/
def scoreOf (p : PersonaState) (turn : Int) (last_speaker : Option String)
    (is_user_message : Bool) (r : ℚ) : ℚ :=
  let since_last : Int := turn - p.last_turn
  let s1 : ℚ := p.proactivity
  let s2 : ℚ :=
    if 2 ≤ p.consecutive_speaks then s1 - 3/10 * p.consecutive_speaks else s1
  let s3 : ℚ :=
    if 5 < since_last then s2 + min (3/10) ((since_last : ℚ) * (1/20)) else s2
  let lsOk : Bool :=
    match last_speaker with
    | some ls => (ls != "") && (ls != p.name)
    | none => false
  let s4 : ℚ := if lsOk ∧ 1 < since_last then s3 + 3/20 else s3
  let s5 : ℚ := if is_user_message ∧ 3/5 < p.proactivity then s4 + 1/5 else s4
  s5 + r

/-- The candidate-building loop of `next_turn`: a mentioned persona with
`since_last > 0` gets score `100`; a persona within its cooldown is
skipped (`continue`); otherwise the persona is scored with one random
draw. -/
def buildCandidates (personas : List PersonaState) (turn : Int)
    (tags : List String) (last_speaker : Option String)
    (is_user_message : Bool) (rand : List ℚ) :
    List (String × ℚ) × List ℚ :=
  match personas with
  | [] => ([], rand)
  | p :: rest =>
    if tags.contains p.name ∧ 0 < turn - p.last_turn then
      let c := buildCandidates rest turn tags last_speaker is_user_message rand
      ((p.name, (100 : ℚ)) :: c.1, c.2)
    else if turn - p.last_turn ≤ p.cooldown then
      buildCandidates rest turn tags last_speaker is_user_message rand
    else
      let c := buildCandidates rest turn tags last_speaker is_user_message
        (popRand rand).2
      ((p.name,
        scoreOf p turn last_speaker is_user_message (popRand rand).1) :: c.1,
        c.2)

/-- One iteration of the threshold-based selection loop of `next_turn`
(the body of `for name, score in candidates`). -/
def selectStep (threshold : ℚ) (max_agents : Int) (chosen : List String)
    (nc : String × ℚ) : List String :=
  if nc.2 ≥ threshold ∧ (chosen.length : Int) < max_agents then
    if chosen.length = 0 ∧ nc.2 ≥ 2/5 then chosen ++ [nc.1]
    else if (chosen.length : Int) < max_agents ∧
        nc.2 ≥ threshold + 1/10 * chosen.length then chosen ++ [nc.1]
    else chosen
  else chosen

/-- The threshold-based selection loop of `next_turn` over the
score-sorted candidates. -/
def selectFold (sorted : List (String × ℚ)) (threshold : ℚ)
    (max_agents : Int) : List String :=
  sorted.foldl (selectStep threshold max_agents) []

/-- The end-of-call state update of `next_turn`: selected personas get
`last_turn ← turn` and `consecutive_speaks += 1`, the rest get
`consecutive_speaks ← 0`. -/
def updateStates (personas : List PersonaState) (chosen : List String)
    (turn : Int) : List PersonaState :=
  personas.map fun p =>
    if chosen.contains p.name then
      { p with last_turn := turn, consecutive_speaks := p.consecutive_speaks + 1 }
    else { p with consecutive_speaks := 0 }

/-- Model of `TurnScheduler.next_turn`, returning the selected speakers, the new
scheduler state, and the remaining random supply.  The sort of the
candidate list (`candidates.sort(key=..., reverse=True)`, a stable
descending sort in Python) is modelled by a stable insertion sort under
`≥` on scores. -/
def nextTurn (st : SchedulerState) (context_tags : List String)
    (last_speaker : Option String) (is_user_message : Bool)
    (rand : List ℚ) : List String × SchedulerState × List ℚ :=
  let bc :=
    buildCandidates st.personas st.turn context_tags last_speaker
      is_user_message rand
  let candidates := bc.1
  let rand' := bc.2
  let mentioned := (candidates.filter fun c => decide ((100 : ℚ) ≤ c.2)).map Prod.fst
  if mentioned ≠ [] then
    (mentioned,
      { st with
        personas := updateStates st.personas mentioned st.turn
        silence_count := 0
        turn := st.turn + 1 },
      rand')
  else
    let sorted := List.insertionSort (fun a b => a.2 ≥ b.2) candidates
    let threshold : ℚ :=
      if st.silence_threshold ≤ st.silence_count then 3/10 else 1/2
    let chosen0 := selectFold sorted threshold st.max_agents
    let chosen :=
      if chosen0 = [] ∧ is_user_message ∧ sorted ≠ [] then
        [(sorted.headD ("", 0)).1]
      else chosen0
    (chosen,
      { st with
        personas := updateStates st.personas chosen st.turn
        silence_count := if chosen ≠ [] then 0 else st.silence_count + 1
        turn := st.turn + 1 },
      rand')

/-- Model of `NemoRuntimeAdapter._build_scheduler`: `max_agents ≤ 0` means "all
participants". -/
def buildScheduler (names : List (String × ℚ)) (max_agents : Int) :
    SchedulerState :=
  let states := names.map fun np =>
    { name := np.1, proactivity := np.2 : PersonaState }
  { personas := states
    max_agents := if max_agents ≤ 0 then (names.length : Int) else max_agents }

/-! ## runtime_adapter.py — `_filter_special_tokens`

The pattern `_SPECIAL_TOKEN_PATTERN = re.compile(r'<[|｜][^|｜]*[|｜]>')`
matches `'<'`, a bar character (`'|'` U+007C or `'｜'` U+FF5C), a run of
non-bar characters, a bar character, `'>'`.  Because `[^|｜]*` can only
consume non-bar characters, backtracking the greedy star can never place
the following `[|｜]` anywhere but at the first bar after the opener, so
the Python match at a position is equivalent to the deterministic check
`tryMatchLen` below.  `re.sub('', text)` removes the leftmost
non-overlapping matches in a single left-to-right scan, which is `filt`. -/

/-- The character class `[|｜]` of `_SPECIAL_TOKEN_PATTERN`. -/
def isBar (c : Char) : Bool := c == '|' || c == '｜'

/-- Length of the match of `<[|｜][^|｜]*[|｜]>` anchored at the head of
`s`, if any. -/
def tryMatchLen (s : List Char) : Option Nat :=
  match s with
  | a :: c :: rest =>
    if a == '<' && isBar c then
      let run := rest.takeWhile fun d => !(isBar d)
      match rest.drop run.length with
      | b :: d :: _ =>
        if isBar b && d == '>' then some (run.length + 4) else none
      | _ => none
    else none
  | _ => none

/-- Model of `_SPECIAL_TOKEN_PATTERN.sub('', ·)`: remove each leftmost
non-overlapping match and continue scanning after it.  When a match of
length `k` is found at the current position, the scan resumes `k`
characters later (on `rest.drop (k-1)`, since `k ≥ 4`).  The recursion is
made structural with a fuel bounded below by the remaining length. -/
def filtFuel : Nat → List Char → List Char
  | 0, _ => []
  | _ + 1, [] => []
  | fuel + 1, c :: rest =>
    match tryMatchLen (c :: rest) with
    | some k => filtFuel fuel (rest.drop (k - 1))
    | none => c :: filtFuel fuel rest

/-- The scan itself; starting with fuel `s.length` suffices because every
step consumes at least one character. -/
def filt (s : List Char) : List Char := filtFuel s.length s

/-- Model of `NemoRuntimeAdapter._filter_special_tokens` on `String`. -/
def filterSpecialTokens (s : String) : String := ⟨filt s.data⟩

/-- Whether the string contains a substring matching
`<[|｜][^|｜]*[|｜]>` (a match anchored at some suffix). -/
def hasMatchB (s : List Char) : Bool :=
  match s with
  | [] => false
  | c :: rest => (tryMatchLen (c :: rest)).isSome || hasMatchB rest

/-- Every occurrence of `'<'` in the string starts a match of the special
token pattern. -/
def ltOk (s : List Char) : Bool :=
  match s with
  | [] => true
  | c :: rest => ((c != '<') || (tryMatchLen (c :: rest)).isSome) && ltOk rest

/-! ## persona_function.py — `_respond_stream` error classification -/

/-- Python `needle in hay` on strings. -/
def strContains (hay needle : String) : Bool :=
  hay.data.tails.any fun t => needle.data.isPrefixOf t

/-- Python `a.startswith(b)` / the "starts with" relation used in the
claims, on the underlying character lists. -/
def strStartsWith (s p : String) : Bool := p.data.isPrefixOf s.data

/-- Python `s.lower()` (identical to `String.toLower`, stated on the
character list so that it evaluates in the kernel). -/
def strToLower (s : String) : String := ⟨s.data.map Char.toLower⟩

/-- The `except Exception` branch of `_respond_stream`
(`persona_function.py`): classify the error message into one of the four
synthetic system-notice replies. -/
def apiErrorMessage (e : String) : String :=
  if strContains e "balance is insufficient" || strContains e "30001" then
    "[系统提示] API 账户余额不足，请充值后再试。"
  else if strContains e "401" || strContains (strToLower e) "authentication" then
    "[系统提示] API 认证失败，请检查 API Key 配置。"
  else if strContains e "429" || strContains (strToLower e) "rate limit" then
    "[系统提示] API 请求频率超限，请稍后再试。"
  else
    "[系统提示] API 调用失败，请检查 API 可用性与配置：" ++ e

/-- The token sequence `_respond_stream` yields when `graph.ainvoke`
raises with message `e`: exactly one synthetic token, then the generator
returns. -/
def respondStreamError (e : String) : List String := [apiErrorMessage e]

/-! ## rag_service.py — `ingest_document` embedding adjustment -/

/-- The count-mismatch adjustment of `ingest_document`: when the number
of returned embedding vectors differs from the chunk count, either sample
the first vector of each group (integral ratio) or truncate.  Two paths
of the Python code fall through its `except Exception` handler, which
truncates: `len(embeddings) % len(split_docs)` raises `ZeroDivisionError`
for zero chunks (the `nChunks ≠ 0` guard), and the comprehension
`embeddings[i * group_size]` raises `IndexError` when the embedding list
is empty with a nonzero chunk count, since then `group_size = 0` and
`embeddings[0]` is out of range (the `embeddings.length ≠ 0` guard).
With all three guards the sampled index `i * group_size` is always in
range — `group_size ≥ 1` and `i * group_size ≤ length - group_size` —
so `getD`'s default is never used. -/
def adjustEmbeddings {α : Type} [Inhabited α] (embeddings : List α)
    (nChunks : Nat) : List α :=
  if embeddings.length = nChunks then embeddings
  else if nChunks ≠ 0 ∧ embeddings.length % nChunks = 0 ∧
      embeddings.length ≠ 0 then
    let groupSize := embeddings.length / nChunks
    (List.range nChunks).map fun i => embeddings.getD (i * groupSize) default
  else embeddings.take nChunks

/-- The pre-insert safety check of `ingest_document`:
`len_ids == len_vecs == len_texts == len_srcs` must hold, otherwise
`ValueError` is raised. -/
def insertCheck (lenIds lenVecs lenTexts lenSrcs : Nat) :
    Except String Unit :=
  if lenIds = lenVecs ∧ lenVecs = lenTexts ∧ lenTexts = lenSrcs then
    Except.ok ()
  else Except.error "Column length mismatch: ensure one embedding per chunk"

/-! ## session_service.py — `SessionRuntime` event handling

Adapter events are dicts `{"event": ..., "data": {...}}`; the data keys
the session worker reads or writes are modelled as optional fields. -/

/-- The `data` dict of a `SessionStreamEvent` / adapter event, restricted
to the keys the worker and the claims touch. -/
structure EventData where
  sender : Option String := none
  content : Option String := none
  message_id : Option String := none
  session_id : Option String := none
  timestamp : Option String := none
  reason : Option String := none
  persisted_message_id : Option String := none
deriving Repr, DecidableEq

/-- A structured event `{"event": ..., "data": {...}}`. -/
structure AdapterEvent where
  event : String
  data : EventData
deriving Repr, DecidableEq

/-- Observable actions of the session worker, in program order:
publishing an event to the subscriber queues, and persisting an agent
message through `repository.add_message`. -/
inductive Action where
  | publish (event : String) (data : EventData)
  | persist (sender content : String)
deriving Repr, DecidableEq

/-- A per-sender tracker `{"id": ..., "buffer": [...]}`. -/
structure Tracker where
  id : String
  buffer : List String
deriving Repr, DecidableEq

/-- Python `"...".strip("_")`. -/
def stripUnderscores (cs : List Char) : List Char :=
  ((cs.dropWhile (· == '_')).reverse.dropWhile (· == '_')).reverse

/-- The sanitizing part of `SessionRuntime._generate_agent_message_id`:
lower-case, keep alphanumerics, replace everything else by `'_'`, strip
leading/trailing underscores, with `"agent"` as fallback.  (`isAlphanum`
is the ASCII restriction of Python's Unicode `str.isalnum`; no claim
depends on non-ASCII sender names.) -/
def sanitizeSender (sender : String) : String :=
  let normalized := if sender = "" then "agent" else sender
  let safe : List Char := stripUnderscores
    ((normalized.data.map Char.toLower).map fun ch =>
      if ch.isAlphanum then ch else '_')
  if safe = [] then "agent" else ⟨safe⟩

/-- Model of `_generate_agent_message_id`: `f"{safe_sender}_{uuid.uuid4().hex[:8]}"`,
with the uuid-derived 8-hex-digit suffix supplied externally. -/
def generateAgentMessageId (sender hex : String) : String :=
  sanitizeSender sender ++ "_" ++ hex

/-- One draw from the uuid hex supply. -/
def popHex (supply : List String) : String × List String :=
  match supply with
  | [] => ("00000000", [])
  | h :: t => (h, t)

/-- Worker-side mutable state: the per-sender trackers (insertion-ordered
as in a Python dict), the uuid hex supply, and a counter standing for the
repository-assigned ids of persisted messages. -/
structure WorkerState where
  trackers : List (String × Tracker)
  hexSupply : List String
  dbCounter : Nat
deriving Repr, DecidableEq

/-- Dict lookup on the tracker map. -/
def lookupTracker (ts : List (String × Tracker)) (s : String) :
    Option Tracker :=
  (ts.find? fun p => p.1 == s).map Prod.snd

/-- Dict `pop` on the tracker map. -/
def removeTracker (ts : List (String × Tracker)) (s : String) :
    List (String × Tracker) :=
  ts.filter fun p => !(p.1 == s)

/-- Model of `SessionRuntime._handle_adapter_event` on one (dict) adapter event:
returns the emitted actions in program order (persist before publish, as
in the source) and the updated worker state.  `now` stands for
`_now_iso()`.  Note the Python `trackers.setdefault(sender, {"id":
self._generate_agent_message_id(sender), ...})` evaluates its default
argument — and hence consumes a uuid draw — even when the key exists. -/
def handleAdapterEvent (sessionId now : String) (ev : AdapterEvent)
    (st : WorkerState) : List Action × WorkerState :=
  let event_type := if ev.event = "" then "agent.chunk" else ev.event
  let data := ev.data
  let senderTruthy : Bool :=
    match data.sender with
    | some s => s != ""
    | none => false
  if (event_type = "agent.start" ∨ event_type = "agent.chunk" ∨
      event_type = "agent.end") ∧ senderTruthy = true then
    let s := data.sender.getD ""
    let hex := (popHex st.hexSupply).1
    let hexRest := (popHex st.hexSupply).2
    let tracker : Tracker :=
      match lookupTracker st.trackers s with
      | some t => t
      | none => { id := generateAgentMessageId s hex, buffer := [] }
    let trackers1 :=
      match lookupTracker st.trackers s with
      | some _ => st.trackers
      | none => st.trackers ++ [(s, tracker)]
    let data1 :=
      { data with
        message_id := some (data.message_id.getD tracker.id)
        session_id := some (data.session_id.getD sessionId) }
    if event_type = "agent.start" then
      let data2 := { data1 with timestamp := some (data1.timestamp.getD now) }
      ([Action.publish event_type data2],
        { st with trackers := trackers1, hexSupply := hexRest })
    else if event_type = "agent.chunk" then
      let content := data.content.getD ""
      let data2 := { data1 with content := some content }
      let trackers2 := trackers1.map fun p =>
        if p.1 == s then (p.1, { p.2 with buffer := p.2.buffer ++ [content] })
        else p
      ([Action.publish event_type data2],
        { st with trackers := trackers2, hexSupply := hexRest })
    else
      let final :=
        match data.content with
        | some c => if c = "" then String.join tracker.buffer else c
        | none => String.join tracker.buffer
      let data2 :=
        { data1 with
          content := some final
          timestamp := some (data1.timestamp.getD now) }
      if final = "" then
        ([Action.publish event_type data2],
          { st with
            trackers := removeTracker trackers1 s
            hexSupply := hexRest })
      else
        let data3 :=
          { data2 with persisted_message_id := some (toString st.dbCounter) }
        ([Action.persist s final, Action.publish event_type data3],
          { st with
            trackers := removeTracker trackers1 s
            hexSupply := hexRest
            dbCounter := st.dbCounter + 1 })
  else
    ([Action.publish event_type data], st)

/-- One step of the tracker flush at the end of `_worker_loop`: a
synthesized `agent.end` for a sender whose stream ended without an
explicit one, persisting the concatenated buffer only if non-empty. -/
def flushOne (sessionId now : String) (s : String) (t : Tracker)
    (dbCounter : Nat) : List Action × Nat :=
  let final := String.join t.buffer
  let payload : EventData :=
    { message_id := some t.id
      sender := some s
      content := some final
      session_id := some sessionId
      timestamp := some now }
  if final = "" then ([Action.publish "agent.end" payload], dbCounter)
  else
    ([Action.persist s final,
      Action.publish "agent.end"
        { payload with persisted_message_id := some (toString dbCounter) }],
      dbCounter + 1)

/-- The full flush loop over the remaining trackers, in insertion order. -/
def flushAll (sessionId now : String) (trackers : List (String × Tracker))
    (dbCounter : Nat) : List Action :=
  match trackers with
  | [] => []
  | (s, t) :: rest =>
    (flushOne sessionId now s t dbCounter).1 ++
      flushAll sessionId now rest (flushOne sessionId now s t dbCounter).2

/-- Process a whole adapter event stream through
`_handle_adapter_event`. -/
def processEvents (sessionId now : String) (events : List AdapterEvent)
    (st : WorkerState) : List Action × WorkerState :=
  match events with
  | [] => ([], st)
  | ev :: rest =>
    let h := handleAdapterEvent sessionId now ev st
    let r := processEvents sessionId now rest h.2
    (h.1 ++ r.1, r.2)

/-- One `_worker_loop` iteration over a finished adapter stream: handle
every event, then flush the trackers that received no explicit
`agent.end`. -/
def runWorker (sessionId now : String) (events : List AdapterEvent)
    (hexSupply : List String) : List Action :=
  let r := processEvents sessionId now events
    { trackers := [], hexSupply := hexSupply, dbCounter := 0 }
  r.1 ++ flushAll sessionId now r.2.trackers r.2.dbCounter

/-! ## runtime_adapter.py — `NemoRuntimeAdapter.invoke_stream`

The conversation loop.  Genuinely external or float/regex-valued pieces
are abstracted as universally quantified parameters in `LoopEnv`:

* `personaStream` — `runtime.invoke_stream(persona, payload)` (the LLM);
  `Except.error e` models the `except Exception` branch;
* `extractTags` — `_extract_tags` applied to agent replies (regex);
* `closingDetect` — the closing-phrase regex search on a reply;
* `smartStop` — the float-valued smart-stop policy over the completed
  rounds (heat window, cosine similarity on `math.sqrt` norms);
* `interrupt` — `consume_interrupt` per round.

Every theorem about the loop quantifies over all such parameters, so it
holds in particular for the concrete Python implementations. -/

/-- A runtime persona as the loop sees it (`persona_map`). -/
structure Persona where
  name : String
  handle : String
  id : Option Int := none
  proactivity : ℚ
deriving Repr, DecidableEq

/-- The invocation payload handed to `runtime.invoke_stream`. -/
structure Payload where
  history : List Message
  user_message : String
  persona_id : Option Int
  active_participants : List String
  user_display_name : Option String := none
  user_handle : Option String := none
  user_persona : Option String := none
deriving Repr, DecidableEq

/-- An entry of `message.history`. -/
structure HistEntry where
  sender : String
  content : String
  recipient : Option String := none
deriving Repr, DecidableEq

/-- The external collaborators of the conversation loop (see section
comment). -/
structure LoopEnv where
  personaStream : String → Payload → Except String (List String)
  extractTags : String → List String
  closingDetect : String → Bool
  smartStop : List (List String × String) → Bool
  interrupt : Nat → Bool

/-- Static per-turn data of the loop. -/
structure LoopConfig where
  sessionId : String
  personas : List Persona
  activeParticipants : List String
  userMessage : String
  memoryWindow : Int
  softClosing : Bool
  userSelected : Option (List String)
  contextTags : List String
  userDisplayName : Option String := none
  userHandle : Option String := none
  userPersona : Option String := none

/-- The literal `yield {"event": "agent.start", "data": {"sender":
persona_name}}` of `invoke_stream`. -/
def agentStartEvent (sender : String) : AdapterEvent :=
  { event := "agent.start", data := { sender := some sender } }

/-- The literal `yield {"event": "agent.chunk", "data": {"content":
text_chunk}}` of `invoke_stream` — note: no `sender` key. -/
def agentChunkEvent (content : String) : AdapterEvent :=
  { event := "agent.chunk", data := { content := some content } }

/-- The literal `yield {"event": "agent.end", "data": {"sender":
persona_name, "content": full_reply}}` of `invoke_stream`. -/
def agentEndEvent (sender content : String) : AdapterEvent :=
  { event := "agent.end"
    data := { sender := some sender, content := some content } }

/-- The literal `yield {"event": "session.stopped", ...}`. -/
def sessionStoppedEvent (sessionId reason : String) : AdapterEvent :=
  { event := "session.stopped"
    data := { session_id := some sessionId, reason := some reason } }

/-- The literal `yield {"event": "session.interrupted", ...}`. -/
def sessionInterruptedEvent (sessionId reason : String) : AdapterEvent :=
  { event := "session.interrupted"
    data := { session_id := some sessionId, reason := some reason } }

/-- Model of `persona_map.get(persona_name)` followed by `.id`. -/
def personaIdOf (personas : List Persona) (name : String) : Option Int :=
  match personas.find? fun p => p.name == name with
  | some p => p.id
  | none => none

/-- Python `list(dict.fromkeys(...))`: deduplicate keeping first occurrences. -/
def dedupKeepFirst (l : List String) : List String :=
  l.foldl (fun acc x => if acc.contains x then acc else acc ++ [x]) []

/-- Payload construction: both branches of the loop build
`{"history": memory.as_payload(runtime.settings.memory_window, last_n=1),
...}`. -/
def mkPayload (cfg : LoopConfig) (pid : Option Int) (mem : List Message)
    (msg : String) : Payload :=
  { history := asPayload mem cfg.memoryWindow (some 1)
    user_message := msg
    persona_id := pid
    active_participants := cfg.activeParticipants
    user_display_name := cfg.userDisplayName
    user_handle := cfg.userHandle
    user_persona := cfg.userPersona }

/-- Mutable state threaded through the speakers of one round. -/
structure SpeakerAcc where
  memory : List Message
  last_speaker : String
  responded : List String
  context_tags : List String
  events : List AdapterEvent
  payloads : List Payload
  round_speakers : List String
  round_text : String
  closing : Bool

/-- The chunk-consuming loop body: skip falsy chunks, filter special
tokens, emit an `agent.chunk` per non-empty filtered chunk and
accumulate `full_reply`. -/
def processChunks (chunks : List String) : List AdapterEvent × String :=
  chunks.foldl
    (fun (st : List AdapterEvent × String) ch =>
      if ch = "" then st
      else
        let f := filterSpecialTokens ch
        if f = "" then st
        else (st.1 ++ [agentChunkEvent f], st.2 ++ f))
    ([], "")

/-- The tail of the per-speaker body after the payload was chosen:
invoke the persona stream (or synthesize the error chunk), emit
`agent.end`, append to memory, update `last_speaker`, `responded`,
`round_text_total`, `context_tags`, and the closing flag. -/
def continueSpeaker (env : LoopEnv) (acc : SpeakerAcc) (name : String)
    (payload : Payload) : SpeakerAcc :=
  let acc := { acc with payloads := acc.payloads ++ [payload] }
  let cr : List AdapterEvent × String :=
    match env.personaStream name payload with
    | Except.ok cs => processChunks cs
    | Except.error e =>
      let em := "[Error from " ++ name ++ ": " ++ e ++ "]"
      ([agentChunkEvent em], em)
  let chunkEvents := cr.1
  let full_reply := cr.2
  let acc :=
    { acc with
      events := acc.events ++ chunkEvents ++ [agentEndEvent name full_reply]
      memory := acc.memory ++
        [({ speaker := name, content := full_reply } : Message)]
      last_speaker := name
      responded :=
        if acc.responded.contains name then acc.responded
        else acc.responded ++ [name]
      round_text := acc.round_text ++ full_reply
      closing := acc.closing || env.closingDetect full_reply }
  let tags := acc.context_tags ++ env.extractTags full_reply
  { acc with
    context_tags := if 32 < tags.length then dedupKeepFirst tags else tags }

/-- One speaker of a round: `agent.start` is emitted first; then either
the user-message payload (round 0, soft closing, or not yet responded),
or — for a speaker equal to `last_speaker` — `continue` (skipping the
rest of the body after the `agent.start`!), or the observed-message
payload. -/
def stepSpeaker (env : LoopEnv) (cfg : LoopConfig) (roundIdx : Nat)
    (acc : SpeakerAcc) (name : String) : SpeakerAcc :=
  let acc :=
    { acc with
      events := acc.events ++ [agentStartEvent name]
      round_speakers := acc.round_speakers ++ [name] }
  let pid := personaIdOf cfg.personas name
  if roundIdx = 0 || cfg.softClosing || !(acc.responded.contains name) then
    continueSpeaker env acc name (mkPayload cfg pid acc.memory cfg.userMessage)
  else if name == acc.last_speaker then acc
  else
    let lastMsg := getLastMessage acc.memory
    let observed := "你刚刚观察到 \"" ++ acc.last_speaker ++ "\" 说: \"" ++
      lastMsg ++ "\"。现在轮到你发言，你可以对此进行评论，或开启新话题。"
    continueSpeaker env acc name (mkPayload cfg pid acc.memory observed)

/-- Mutable state threaded across rounds. -/
structure RoundState where
  sched : SchedulerState
  rand : List ℚ
  memory : List Message
  last_speaker : String
  is_first_round : Bool
  responded : List String
  context_tags : List String
  roundsDone : List (List String × String)
  events : List AdapterEvent
  payloads : List Payload

/-- The round loop `for exchange_round in range(max_exchanges)`, with the
remaining iteration count as fuel.  Returns the yielded event sequence
and (as an additional observation) the payloads handed to
`runtime.invoke_stream`. -/
def loopRounds (env : LoopEnv) (cfg : LoopConfig) :
    Nat → Nat → RoundState → List AdapterEvent × List Payload
  | 0, _, rs => (rs.events, rs.payloads)
  | fuel + 1, roundIdx, rs =>
    let tagsArg : List String :=
      if roundIdx = 0 then cfg.contextTags
      else
        match cfg.userSelected with
        | some sel => sel
        | none => []
    let nt :=
      nextTurn rs.sched tagsArg (some rs.last_speaker) rs.is_first_round rs.rand
    let speakers := nt.1
    let sched' := nt.2.1
    let rand' := nt.2.2
    if speakers = [] then (rs.events, rs.payloads)
    else if speakers.length = 1 ∧ speakers.headD "" = rs.last_speaker ∧
        rs.is_first_round = false then
      loopRounds env cfg fuel (roundIdx + 1)
        { rs with sched := sched', rand := rand' }
    else
      let acc0 : SpeakerAcc :=
        { memory := rs.memory
          last_speaker := rs.last_speaker
          responded := rs.responded
          context_tags := rs.context_tags
          events := rs.events
          payloads := rs.payloads
          round_speakers := []
          round_text := ""
          closing := false }
      let acc := speakers.foldl (stepSpeaker env cfg roundIdx) acc0
      if acc.closing then
        (acc.events ++ [sessionStoppedEvent cfg.sessionId "closing_phrase"],
          acc.payloads)
      else
        let rounds' := rs.roundsDone ++ [(acc.round_speakers, acc.round_text)]
        if env.smartStop rounds' then (acc.events, acc.payloads)
        else if (match cfg.userSelected with
            | some sel => !sel.isEmpty && sel.all (acc.responded.contains ·)
            | none => false) then
          (acc.events, acc.payloads)
        else if env.interrupt roundIdx then
          (acc.events ++
            [sessionInterruptedEvent cfg.sessionId "user_message_pending"],
            acc.payloads)
        else
          loopRounds env cfg fuel (roundIdx + 1)
            { sched := sched'
              rand := rand'
              memory := acc.memory
              last_speaker := acc.last_speaker
              is_first_round := false
              responded := acc.responded
              context_tags := acc.context_tags
              roundsDone := rounds'
              events := acc.events
              payloads := acc.payloads }

/-- Model of `NemoRuntimeAdapter.invoke_stream` for one user message:
participant-list fixup, memory initialization from the message history
plus the new user message, scheduler construction, and the round loop.
`contextTags` stands for `_extract_tags(user_message, personas)` plus the
explicitly targeted persona names, and `userSelected` for
`user_selected_personas`, both computed before the loop in the source;
`softClosing` for the soft-closing regex test on the user message. -/
def invokeStreamRun (env : LoopEnv) (cfg : LoopConfig)
    (messageSender : Option String) (history : List HistEntry)
    (maxAgentsCfg : Int) (configuredMaxExchanges : Int) (rand : List ℚ) :
    List AdapterEvent × List Payload :=
  let senderName :=
    match messageSender with
    | some s => if s = "" then "user" else s
    | none => "user"
  let mem0 : List Message :=
    (history.map fun h =>
      { speaker := h.sender, content := h.content, recipient := h.recipient }) ++
    [{ speaker := senderName, content := cfg.userMessage }]
  let sched0 :=
    buildScheduler (cfg.personas.map fun p => (p.name, p.proactivity))
      maxAgentsCfg
  let maxExchanges : Nat :=
    if cfg.softClosing then 1 else (max 1 configuredMaxExchanges).toNat
  loopRounds env cfg maxExchanges 0
    { sched := sched0
      rand := rand
      memory := mem0
      last_speaker := senderName
      is_first_round := true
      responded := []
      context_tags := cfg.contextTags
      roundsDone := []
      events := []
      payloads := [] }

/-- Mapping `session.participants` → `active_participants`: the user is always an
implicit participant. -/
def mkActiveParticipants (participantHandles : List String) : List String :=
  if participantHandles.contains "user" || participantHandles.contains "用户"
  then participantHandles else "user" :: participantHandles

/-! # Theorems -/

/-! ## C8 — `ConversationMemory.recent` on non-positive arguments -/

/-- C8 counterexample: the claim says `recent n` returns the full stored
history for every `n ≤ 0`, but `self._messages[-limit:]` with
`limit = -1` is the Python slice `l[1:]`, which drops the first message:
on a one-message history `recent (-1)` is empty. -/
theorem c8_counterexample_recent_neg_one :
    recent [{ speaker := "u", content := "m" : Message }] (-1) ≠
      [{ speaker := "u", content := "m" : Message }] := by
  decide

/-- C8 (amended): `recent 0` returns the full stored history in insertion
order, and for `n < 0` the slice `l[-n:]` drops the first `min(-n, len)`
messages instead; only `n = 0` yields the full history. -/
theorem c8_recent_nonpos_amended (msgs : List Message) :
    recent msgs 0 = msgs ∧
      ∀ n : Int, n ≤ 0 → recent msgs n = msgs.drop (-n).toNat := by
  constructor
  · simp [recent]
  · intro n hn
    unfold recent
    rw [if_neg (by omega)]

/-- C8 witness: the amended description evaluated at a concrete history
and `n = -1`. -/
theorem c8_recent_witness :
    recent [{ speaker := "u", content := "m" : Message }] (-1) = [] := by
  have h := (c8_recent_nonpos_amended
    [{ speaker := "u", content := "m" : Message }]).2 (-1) (by decide)
  rw [h]
  decide

/-! ## C9 — `ingest_document` embedding-count adjustment -/

/-- C9 counterexample: zero returned vectors over three chunks.  The
vector count `0` differs from the chunk count `3` and is an integral
multiple of it (`0 % 3 = 0`), so the claim prescribes keeping exactly one
vector per chunk (three vectors).  The source instead computes
`group_size = 0`, the comprehension `embeddings[i * group_size]` raises
`IndexError` on the empty list, and the enclosing `except` truncates —
the program returns the empty vector list, not one vector per chunk. -/
theorem c9_counterexample_zero_vectors :
    (0 : Nat) ≠ 3 ∧ (0 : Nat) % 3 = 0 ∧
      adjustEmbeddings ([] : List ℕ) 3 = [] ∧
      (adjustEmbeddings ([] : List ℕ) 3).length ≠ 3 := by
  decide

/-- C9 (amended): when the embedding row count differs from the chunk
count, the ratio is integral and at least one vector was returned,
exactly one vector per chunk is kept — the first of each group of size
`len / nChunks`; in every other mismatch case the list is truncated to
the chunk count — including zero chunks (`ZeroDivisionError → except`)
and zero returned vectors (`IndexError → except`), where truncation
yields the empty list; and the pre-insert safety check fails exactly when
the four column lengths are not all equal. -/
theorem c9_ingest_embedding_adjustment {α : Type} [Inhabited α]
    (embeddings : List α) (nChunks : Nat) :
    (embeddings.length ≠ nChunks → nChunks ≠ 0 → embeddings.length ≠ 0 →
      embeddings.length % nChunks = 0 →
      (adjustEmbeddings embeddings nChunks).length = nChunks ∧
      ∀ i < nChunks, (adjustEmbeddings embeddings nChunks)[i]? =
        some (embeddings.getD (i * (embeddings.length / nChunks)) default)) ∧
    (embeddings.length ≠ nChunks →
      ¬(nChunks ≠ 0 ∧ embeddings.length % nChunks = 0 ∧
        embeddings.length ≠ 0) →
      adjustEmbeddings embeddings nChunks = embeddings.take nChunks) ∧
    (∀ a b c d : Nat, (∃ msg, insertCheck a b c d = Except.error msg) ↔
      ¬(a = b ∧ b = c ∧ c = d)) := by
  refine ⟨?_, ?_, ?_⟩
  · intro hne hz hlen hmod
    unfold adjustEmbeddings
    rw [if_neg hne, if_pos ⟨hz, hmod, hlen⟩]
    refine ⟨by simp, ?_⟩
    intro i hi
    rw [List.getElem?_map, List.getElem?_range hi]
    rfl
  · intro hne hnot
    unfold adjustEmbeddings
    rw [if_neg hne, if_neg hnot]
  · intro a b c d
    unfold insertCheck
    by_cases h : a = b ∧ b = c ∧ c = d
    · rw [if_pos h]
      simp [h]
    · rw [if_neg h]
      simp [h]

/-- C9 witness: six vectors over three chunks keep the first of each pair;
evaluated through the theorem at a concrete input. -/
theorem c9_ingest_witness :
    (adjustEmbeddings ([10, 11, 20, 21, 30, 31] : List ℕ) 3)[1]? = some 20 := by
  have h := (c9_ingest_embedding_adjustment
    ([10, 11, 20, 21, 30, 31] : List ℕ) 3).1 (by decide) (by decide)
    (by decide) (by decide)
  rw [h.2 1 (by decide)]
  decide

/-! ## C3 — `_respond_stream` error classification -/

/-- C3: when the agent graph raises, the streaming invoker yields exactly
one synthetic token; its prefix is determined by the error-message
classification in the order balance / auth / rate-limit / generic. -/
theorem c3_respond_stream_single_classified_token (e : String) :
    ∃ t : String, respondStreamError e = [t] ∧
      ((strContains e "balance is insufficient" || strContains e "30001") =
          true →
        strStartsWith t "[系统提示] API 账户余额不足" = true) ∧
      ((strContains e "balance is insufficient" || strContains e "30001") =
          false →
        (strContains e "401" || strContains (strToLower e) "authentication") =
          true →
        strStartsWith t "[系统提示] API 认证失败" = true) ∧
      ((strContains e "balance is insufficient" || strContains e "30001") =
          false →
        (strContains e "401" || strContains (strToLower e) "authentication") =
          false →
        (strContains e "429" || strContains (strToLower e) "rate limit") = true →
        strStartsWith t "[系统提示] API 请求频率超限" = true) ∧
      ((strContains e "balance is insufficient" || strContains e "30001") =
          false →
        (strContains e "401" || strContains (strToLower e) "authentication") =
          false →
        (strContains e "429" || strContains (strToLower e) "rate limit") = false →
        strStartsWith t "[系统提示] API 调用失败" = true) := by
  refine ⟨apiErrorMessage e, rfl, ?_, ?_, ?_, ?_⟩
  · intro h1
    unfold apiErrorMessage
    rw [if_pos h1]
    decide
  · intro h1 h2
    unfold apiErrorMessage
    rw [if_neg (by simp [h1]), if_pos h2]
    decide
  · intro h1 h2 h3
    unfold apiErrorMessage
    rw [if_neg (by simp [h1]), if_neg (by simp [h2]), if_pos h3]
    decide
  · intro h1 h2 h3
    unfold apiErrorMessage
    rw [if_neg (by simp [h1]), if_neg (by simp [h2]), if_neg (by simp [h3])]
    unfold strStartsWith
    rw [String.data_append]
    have hp : "[系统提示] API 调用失败".data <+:
        "[系统提示] API 调用失败，请检查 API 可用性与配置：".data :=
      List.isPrefixOf_iff_prefix.mp (by decide)
    exact List.isPrefixOf_iff_prefix.mpr (hp.trans (List.prefix_append _ _))

/-- C3 witness: an authentication failure message evaluated through the
theorem. -/
theorem c3_respond_stream_witness :
    respondStreamError "got HTTP 401" =
        ["[系统提示] API 认证失败，请检查 API Key 配置。"] ∧
      strStartsWith "[系统提示] API 认证失败，请检查 API Key 配置。"
        "[系统提示] API 认证失败" = true := by
  obtain ⟨t, ht, _, h2, _, _⟩ :=
    c3_respond_stream_single_classified_token "got HTTP 401"
  have hteq : t = apiErrorMessage "got HTTP 401" := by
    have : [apiErrorMessage "got HTTP 401"] = [t] := ht
    simpa using this.symm
  subst hteq
  refine ⟨by rw [ht]; decide, ?_⟩
  have := h2 (by decide) (by decide)
  rw [show apiErrorMessage "got HTTP 401" =
    "[系统提示] API 认证失败，请检查 API Key 配置。" by decide] at this
  exact this

/-! ## C6 — the special-token filter -/

/-- A position not starting with `'<'` never matches the pattern. -/
theorem tryMatchLen_ne_lt {c : Char} (l : List Char) (h : c ≠ '<') :
    tryMatchLen (c :: l) = none := by
  cases l with
  | nil => rfl
  | cons d rest =>
    simp [tryMatchLen, beq_eq_false_iff_ne.mpr h]

/-- Property `ltOk` is inherited by suffixes. -/
theorem ltOk_drop (n : Nat) (l : List Char) (h : ltOk l = true) :
    ltOk (l.drop n) = true := by
  induction n generalizing l with
  | zero => simpa using h
  | succ n ih =>
    cases l with
    | nil => simpa using h
    | cons c rest =>
      rw [List.drop_succ_cons]
      refine ih rest ?_
      have h' := h
      simp only [ltOk, Bool.and_eq_true] at h'
      exact h'.2

/-- If every `'<'` in the input starts a match, the single-pass filter
removes every `'<'`. -/
theorem filtFuel_no_lt (fuel : Nat) (s : List Char) (hf : s.length ≤ fuel)
    (h : ltOk s = true) :
    (filtFuel fuel s).all (fun c => c != '<') = true := by
  induction fuel generalizing s with
  | zero =>
    interval_cases hs : s.length
    · rw [List.length_eq_zero] at hs
      subst hs
      rfl
  | succ fuel ih =>
    cases s with
    | nil => rfl
    | cons c rest =>
      have hrest : ltOk rest = true := by
        have h' := h
        simp only [ltOk, Bool.and_eq_true] at h'
        exact h'.2
      cases htm : tryMatchLen (c :: rest) with
      | some k =>
        simp only [filtFuel, htm]
        refine ih (rest.drop (k - 1)) ?_ (ltOk_drop _ _ hrest)
        have : rest.length + 1 ≤ fuel + 1 := by simpa using hf
        simp only [List.length_drop]
        omega
      | none =>
        have hc : (c != '<') = true := by
          have h' := h
          simp only [ltOk, Bool.and_eq_true, Bool.or_eq_true] at h'
          rcases h'.1 with hc | hsome
          · exact hc
          · rw [htm] at hsome
            simp at hsome
        simp only [filtFuel, htm]
        rw [List.all_cons, hc, Bool.true_and]
        exact ih rest (by simpa using Nat.le_of_succ_le_succ (by simpa using hf))
          hrest

/-- A string without `'<'` contains no match of the pattern. -/
theorem hasMatchB_eq_false_of_no_lt (s : List Char)
    (h : s.all (fun c => c != '<') = true) : hasMatchB s = false := by
  induction s with
  | nil => rfl
  | cons c rest ih =>
    rw [List.all_cons, Bool.and_eq_true] at h
    have hc : c ≠ '<' := by simpa using h.1
    simp [hasMatchB, tryMatchLen_ne_lt rest hc, ih h.2]

/-- C6 counterexample: the claim says the filter output never contains a
match of `<[|｜][^|｜]*[|｜]>`, but the single `re.sub` pass on
`"<|<|x|>y|>"` removes only the inner `"<|x|>"` and glues the remainder
into `"<|y|>"`, which matches the pattern again. -/
theorem c6_counterexample_filter_recomposed_match :
    filterSpecialTokens "<|<|x|>y|>" = "<|y|>" ∧
      hasMatchB (filterSpecialTokens "<|<|x|>y|>").data = true := by
  decide

/-- C6 (amended): the filter is a single left-to-right `re.sub` pass, so
a deletion can glue a dangling `<|` prefix to a later `|>` and leave a
re-composed match; the output is guaranteed free of matches whenever
every occurrence of `'<'` in the input itself starts a match of the
pattern (in particular the output of such inputs contains no `'<'` at
all). -/
theorem c6_filter_amended (s : String) (h : ltOk s.data = true) :
    hasMatchB (filterSpecialTokens s).data = false := by
  have h1 := filtFuel_no_lt s.data.length s.data le_rfl h
  have h2 : (filterSpecialTokens s).data = filtFuel s.data.length s.data := rfl
  rw [h2]
  exact hasMatchB_eq_false_of_no_lt _ h1

/-- C6 witness: a concrete input whose only `'<'` opens a well-formed
artifact token, evaluated through the amended theorem. -/
theorem c6_filter_amended_witness :
    hasMatchB (filterSpecialTokens "ab<|x|>cd").data = false :=
  c6_filter_amended "ab<|x|>cd" (by decide)

/-! ## C1 — `agent.chunk` events published without sender / ids -/

/-- C1 (code-bug exhibit): `NemoRuntimeAdapter.invoke_stream` yields
`agent.chunk` events whose data contains only `content`
(`runtime_adapter.py`, `yield {"event": "agent.chunk", "data": {"content":
text_chunk}}`) — no `sender`.  `SessionRuntime._handle_adapter_event`
attaches `message_id` / `session_id` only when the incoming event carries
a truthy sender, so on the adapter's own event stream the published
`agent.start` carries the correlation id but the published `agent.chunk`
carries neither `sender`, `message_id` nor `session_id`, contradicting
the documented event schema (and the repository's own WebSocket test,
which exercises the stub adapter whose chunks do carry `sender`). -/
theorem c1_nemo_chunk_published_without_ids :
    (runWorker "sess1" "T0"
        [agentStartEvent "Ada", agentChunkEvent "hello",
          agentEndEvent "Ada" "hello"] ["deadbeef"])[0]? =
      some (Action.publish "agent.start"
        { sender := some "Ada", message_id := some "ada_deadbeef",
          session_id := some "sess1", timestamp := some "T0" }) ∧
    (runWorker "sess1" "T0"
        [agentStartEvent "Ada", agentChunkEvent "hello",
          agentEndEvent "Ada" "hello"] ["deadbeef"])[1]? =
      some (Action.publish "agent.chunk" { content := some "hello" }) := by
  decide

/-! ## C4 / C7 — scheduler lemmas -/

/-- Origin of a candidate entry: it was produced either by the forced
mention branch (mentioned and `since_last > 0`) or by the scoring branch
(past its cooldown). -/
theorem buildCandidates_mem (personas : List PersonaState) (turn : Int)
    (tags : List String) (ls : Option String) (ium : Bool) (rand : List ℚ)
    (q : String × ℚ)
    (hq : q ∈ (buildCandidates personas turn tags ls ium rand).1) :
    ∃ p ∈ personas, p.name = q.1 ∧
      ((tags.contains p.name = true ∧ 0 < turn - p.last_turn) ∨
        p.cooldown < turn - p.last_turn) := by
  induction personas generalizing rand with
  | nil => simp [buildCandidates] at hq
  | cons p rest ih =>
    rw [buildCandidates] at hq
    by_cases h1 : tags.contains p.name = true ∧ 0 < turn - p.last_turn
    · rw [if_pos h1] at hq
      rcases List.mem_cons.mp hq with hq | hq
      · subst hq
        exact ⟨p, List.mem_cons_self _ _, rfl, Or.inl h1⟩
      · obtain ⟨p', hp', hname, hcase⟩ := ih rand hq
        exact ⟨p', List.mem_cons_of_mem _ hp', hname, hcase⟩
    · rw [if_neg h1] at hq
      by_cases h2 : turn - p.last_turn ≤ p.cooldown
      · rw [if_pos h2] at hq
        obtain ⟨p', hp', hname, hcase⟩ := ih rand hq
        exact ⟨p', List.mem_cons_of_mem _ hp', hname, hcase⟩
      · rw [if_neg h2] at hq
        rcases List.mem_cons.mp hq with hq | hq
        · subst hq
          exact ⟨p, List.mem_cons_self _ _, rfl, Or.inr (by omega)⟩
        · obtain ⟨p', hp', hname, hcase⟩ := ih _ hq
          exact ⟨p', List.mem_cons_of_mem _ hp', hname, hcase⟩

/-- One selection step either keeps the accumulator or appends the
candidate's name. -/
theorem selectStep_eq_or (threshold : ℚ) (max_agents : Int)
    (chosen : List String) (nc : String × ℚ) :
    selectStep threshold max_agents chosen nc = chosen ∨
      selectStep threshold max_agents chosen nc = chosen ++ [nc.1] := by
  unfold selectStep
  split_ifs <;> simp

/-- Everything the selection loop returns is an input candidate (or was
already in the accumulator). -/
theorem foldl_selectStep_mem (threshold : ℚ) (max_agents : Int)
    (l : List (String × ℚ)) (acc : List String) (x : String)
    (hx : x ∈ l.foldl (selectStep threshold max_agents) acc) :
    x ∈ acc ∨ ∃ q ∈ l, q.1 = x := by
  induction l generalizing acc with
  | nil => exact Or.inl (by simpa using hx)
  | cons q rest ih =>
    rw [List.foldl_cons] at hx
    rcases ih (selectStep threshold max_agents acc q) hx with h | h
    · rcases selectStep_eq_or threshold max_agents acc q with he | he
      · rw [he] at h
        exact Or.inl h
      · rw [he] at h
        rcases List.mem_append.mp h with h | h
        · exact Or.inl h
        · have hx1 : x = q.1 := by simpa using h
          exact Or.inr ⟨q, List.mem_cons_self _ _, hx1.symm⟩
    · obtain ⟨q', hq', he⟩ := h
      exact Or.inr ⟨q', List.mem_cons_of_mem _ hq', he⟩

/-- Every name `next_turn` returns comes from a candidate entry — on the
forced path, the threshold path, and the round-0 fallback alike. -/
theorem nextTurn_mem (st : SchedulerState) (tags : List String)
    (ls : Option String) (ium : Bool) (rand : List ℚ) (x : String)
    (hx : x ∈ (nextTurn st tags ls ium rand).1) :
    ∃ q ∈ (buildCandidates st.personas st.turn tags ls ium rand).1,
      q.1 = x := by
  unfold nextTurn at hx
  simp only at hx
  set cands := (buildCandidates st.personas st.turn tags ls ium rand).1
    with hcands
  by_cases hm :
      ((cands.filter fun c => decide ((100 : ℚ) ≤ c.2)).map Prod.fst) ≠ []
  · rw [if_pos hm] at hx
    obtain ⟨q, hq, hqx⟩ := List.mem_map.mp hx
    exact ⟨q, (List.mem_filter.mp hq).1, hqx⟩
  · rw [if_neg hm] at hx
    set sorted := List.insertionSort (fun a b => a.2 ≥ b.2) cands with hsorted
    set threshold : ℚ :=
      if st.silence_threshold ≤ st.silence_count then 3/10 else 1/2
    by_cases hfall :
        selectFold sorted threshold st.max_agents = [] ∧ ium = true ∧
          sorted ≠ []
    · rw [if_pos hfall] at hx
      have hx1 : x = (sorted.headD ("", 0)).1 := by simpa using hx
      obtain ⟨s0, srest, hs⟩ := List.exists_cons_of_ne_nil hfall.2.2
      have hhead : sorted.headD ("", 0) = s0 := by rw [hs]; rfl
      have hmem : sorted.headD ("", 0) ∈ sorted := by
        rw [hhead, hs]
        exact List.mem_cons_self _ _
      have hmem' : sorted.headD ("", 0) ∈ cands :=
        (List.perm_insertionSort _ cands).mem_iff.mp (by rwa [← hsorted])
      exact ⟨sorted.headD ("", 0), hmem', hx1.symm⟩
    · rw [if_neg hfall] at hx
      rcases foldl_selectStep_mem threshold st.max_agents sorted [] x hx with
        h | ⟨q, hq, hqx⟩
      · cases h
      · exact ⟨q, (List.perm_insertionSort _ cands).mem_iff.mp
          (by rwa [← hsorted]), hqx⟩

/-- C4: across all scheduler states (hence all call sequences), the
speaker list returned by `next_turn` never contains a persona whose
cooldown is still running (`turn - last_turn ≤ cooldown`) unless it was
mentioned in `context_tags`; the round-0 fallback included.  The
`Nodup` hypothesis is the key uniqueness of the source's name-keyed
persona dict. -/
theorem c4_cooldown_never_violated (st : SchedulerState) (tags : List String)
    (ls : Option String) (ium : Bool) (rand : List ℚ)
    (hnodup : (st.personas.map PersonaState.name).Nodup)
    (p : PersonaState) (hp : p ∈ st.personas)
    (hmem : p.name ∈ (nextTurn st tags ls ium rand).1)
    (hnot : tags.contains p.name = false) :
    p.cooldown < st.turn - p.last_turn := by
  obtain ⟨q, hq, hqname⟩ := nextTurn_mem st tags ls ium rand p.name hmem
  obtain ⟨p', hp', hp'name, hcase⟩ :=
    buildCandidates_mem st.personas st.turn tags ls ium rand q hq
  have hpp : p' = p :=
    List.inj_on_of_nodup_map hnodup hp' hp (by rw [hp'name, hqname])
  subst hpp
  rcases hcase with ⟨hc, _⟩ | hc
  · rw [hnot] at hc
    cases hc
  · exact hc

/-- A scheduler state used to evaluate the C4 theorem concretely. -/
def stW : SchedulerState := buildScheduler [("Ada", 3/10)] 2

/-- C4 witness: a concrete call in which Ada is selected (via the
threshold path) and is indeed past her cooldown. -/
theorem c4_cooldown_witness :
    (⟨"Ada", 3/10, 1, -10, 0⟩ : PersonaState).cooldown <
      stW.turn - (⟨"Ada", 3/10, 1, -10, 0⟩ : PersonaState).last_turn :=
  c4_cooldown_never_violated stW [] (some "user") true [0]
    (by with_unfolding_all decide) ⟨"Ada", 3/10, 1, -10, 0⟩
    (by with_unfolding_all decide) (by with_unfolding_all decide)
    (by with_unfolding_all decide)

/-- Bound on a scoring-branch score: with `proactivity ≤ 1` and a random
draw `≤ 1/10` (as `random.uniform(-0.1, 0.1)` guarantees) the score stays
far below the forced-mention score `100`. -/
theorem scoreOf_lt_hundred (p : PersonaState) (turn : Int)
    (ls : Option String) (ium : Bool) (r : ℚ)
    (hpro : p.proactivity ≤ 1) (hr : r ≤ 1/10) :
    scoreOf p turn ls ium r < 100 := by
  have hmin : min ((3 : ℚ)/10) (((turn - p.last_turn : Int) : ℚ) * (1/20)) ≤
      3/10 := min_le_left _ _
  have hcons : (0 : ℚ) ≤ 3/10 * (p.consecutive_speaks : ℚ) := by positivity
  simp only [scoreOf]
  split_ifs <;> linarith

/-- In the candidate list, the entries with score `≥ 100` are exactly the
mentioned-and-eligible personas, in persona-registration order. -/
theorem buildCandidates_forced (personas : List PersonaState) (turn : Int)
    (tags : List String) (ls : Option String) (ium : Bool) (rand : List ℚ)
    (hpro : ∀ p ∈ personas, p.proactivity ≤ 1)
    (hr : ∀ x ∈ rand, x ≤ 1/10) :
    ((buildCandidates personas turn tags ls ium rand).1.filter
        fun c => decide ((100 : ℚ) ≤ c.2)).map Prod.fst =
      (personas.filter fun p =>
        decide (tags.contains p.name = true ∧ 0 < turn - p.last_turn)).map
        PersonaState.name := by
  induction personas generalizing rand with
  | nil => simp [buildCandidates]
  | cons p rest ih =>
    rw [buildCandidates]
    have hpro' : ∀ p' ∈ rest, p'.proactivity ≤ 1 := fun p' h =>
      hpro p' (List.mem_cons_of_mem _ h)
    by_cases h1 : tags.contains p.name = true ∧ 0 < turn - p.last_turn
    · rw [if_pos h1]
      have h100 : decide ((100 : ℚ) ≤
          ((p.name, (100 : ℚ)) : String × ℚ).2) = true := by norm_num
      have hcond : decide (tags.contains p.name = true ∧
          0 < turn - p.last_turn) = true := decide_eq_true h1
      simp only [List.filter_cons, h100, hcond, if_true, List.map_cons]
      exact congrArg (List.cons p.name) (ih rand hpro' hr)
    · rw [if_neg h1]
      have hcond : decide (tags.contains p.name = true ∧
          0 < turn - p.last_turn) = false := decide_eq_false h1
      by_cases h2 : turn - p.last_turn ≤ p.cooldown
      · rw [if_pos h2]
        simp only [List.filter_cons, hcond, Bool.false_eq_true, if_false]
        exact ih rand hpro' hr
      · rw [if_neg h2]
        have hrhead : (popRand rand).1 ≤ 1/10 := by
          cases rand with
          | nil => norm_num [popRand]
          | cons r rs => exact hr r (List.mem_cons_self _ _)
        have hscore :
            scoreOf p turn ls ium (popRand rand).1 < 100 :=
          scoreOf_lt_hundred p turn ls ium _
            (hpro p (List.mem_cons_self _ _)) hrhead
        have hrtail : ∀ x ∈ (popRand rand).2, x ≤ 1/10 := by
          cases rand with
          | nil => simp [popRand]
          | cons r rs =>
            intro x hxm
            exact hr x (List.mem_cons_of_mem _ hxm)
        have hscoreF : decide ((100 : ℚ) ≤
            ((p.name, scoreOf p turn ls ium (popRand rand).1) :
              String × ℚ).2) = false := by
          exact decide_eq_false (by simpa using not_le.mpr hscore)
        simp only [List.filter_cons, hcond, hscoreF, Bool.false_eq_true,
          if_false]
        exact ih (popRand rand).2 hpro' hrtail

/-- C7 counterexample input: two registered personas, both eligible. -/
def stMention : SchedulerState := buildScheduler [("Ada", 3/10), ("Ben", 9/10)] 2

/-- C7 counterexample: with `context_tags = ["Ben", "Ada"]` and both
mentioned personas eligible, the speakers come back in persona
registration order `["Ada", "Ben"]`, not in mention order
`["Ben", "Ada"]` — the source iterates `self.personas.values()` and never
consults the order of `context_tags`. -/
theorem c7_counterexample_mention_order :
    (nextTurn stMention ["Ben", "Ada"] (some "user") true []).1 =
        ["Ada", "Ben"] ∧
      (nextTurn stMention ["Ben", "Ada"] (some "user") true []).1 ≠
        ["Ben", "Ada"] := by
  with_unfolding_all decide

/-- C7 (amended): whenever at least one mentioned persona is eligible
(`turn - last_turn > 0`), the returned speaker list is exactly the
eligible mentioned personas **in persona-registration order** (the
insertion order of the scheduler's persona dict), not in mention order.
The hypotheses `proactivity ≤ 1` (data-model range) and random draws
`≤ 1/10` (`random.uniform(-0.1, 0.1)`) keep scoring-branch scores below
the forced score `100`. -/
theorem c7_forced_mode_registration_order (st : SchedulerState)
    (tags : List String) (ls : Option String) (ium : Bool) (rand : List ℚ)
    (hpro : ∀ p ∈ st.personas, p.proactivity ≤ 1)
    (hr : ∀ x ∈ rand, x ≤ 1/10)
    (hex : ∃ p ∈ st.personas, tags.contains p.name = true ∧
      0 < st.turn - p.last_turn) :
    (nextTurn st tags ls ium rand).1 =
      (st.personas.filter fun p =>
        decide (tags.contains p.name = true ∧ 0 < st.turn - p.last_turn)).map
        PersonaState.name := by
  unfold nextTurn
  simp only
  rw [buildCandidates_forced st.personas st.turn tags ls ium rand hpro hr]
  rw [if_pos ?_]
  obtain ⟨p, hp, hcond⟩ := hex
  have : p ∈ st.personas.filter fun p =>
      decide (tags.contains p.name = true ∧ 0 < st.turn - p.last_turn) :=
    List.mem_filter.mpr ⟨hp, decide_eq_true hcond⟩
  intro hempty
  rw [List.map_eq_nil_iff] at hempty
  rw [hempty] at this
  cases this

/-- C7 witness: the amended statement evaluated on the counterexample
input. -/
theorem c7_forced_mode_witness :
    (nextTurn stMention ["Ben", "Ada"] (some "user") true []).1 =
      (stMention.personas.filter fun p =>
        decide ((["Ben", "Ada"].contains p.name) = true ∧
          0 < stMention.turn - p.last_turn)).map PersonaState.name :=
  c7_forced_mode_registration_order stMention ["Ben", "Ada"] (some "user")
    true [] (by with_unfolding_all decide) (by simp)
    ⟨⟨"Ada", 3/10, 1, -10, 0⟩, by with_unfolding_all decide,
      by with_unfolding_all decide, by with_unfolding_all decide⟩

/-! ## C2 — persistence discipline of the session worker -/

/-- Every persist action in the trace has non-empty content and is
immediately followed by the publication of the corresponding `agent.end`
event (same sender, same content) — "persisted only when non-empty and
only at the moment the `agent.end` is published". -/
def persistImmediatelyPublished (l : List Action) : Prop :=
  ∀ i s c, l[i]? = some (Action.persist s c) →
    c ≠ "" ∧ ∃ d, l[i+1]? = some (Action.publish "agent.end" d) ∧
      d.sender = some s ∧ d.content = some c

theorem pip_append {a b : List Action}
    (ha : persistImmediatelyPublished a)
    (hb : persistImmediatelyPublished b) :
    persistImmediatelyPublished (a ++ b) := by
  intro i s c h
  rw [List.getElem?_append] at h
  by_cases hi : i < a.length
  · rw [if_pos hi] at h
    obtain ⟨hc, d, hd, hds, hdc⟩ := ha i s c h
    have hi1 : i + 1 < a.length := (List.getElem?_eq_some.mp hd).1
    refine ⟨hc, d, ?_, hds, hdc⟩
    rw [List.getElem?_append, if_pos hi1]
    exact hd
  · rw [if_neg hi] at h
    obtain ⟨hc, d, hd, hds, hdc⟩ := hb (i - a.length) s c h
    refine ⟨hc, d, ?_, hds, hdc⟩
    rw [List.getElem?_append, if_neg (by omega)]
    rw [show i + 1 - a.length = (i - a.length) + 1 by omega]
    exact hd

theorem pip_nil : persistImmediatelyPublished [] := by
  intro i s c h
  simp at h

theorem pip_publish_single (e : String) (d : EventData) :
    persistImmediatelyPublished [Action.publish e d] := by
  intro i s c h
  match i with
  | 0 => simp at h
  | n + 1 => simp at h

theorem pip_persist_pair (s c : String) (d : EventData) (hc : c ≠ "")
    (hds : d.sender = some s) (hdc : d.content = some c) :
    persistImmediatelyPublished
      [Action.persist s c, Action.publish "agent.end" d] := by
  intro i s' c' h
  match i with
  | 0 =>
    simp only [List.getElem?_cons_zero, Option.some.injEq,
      Action.persist.injEq] at h
    obtain ⟨hs, hcc⟩ := h
    subst hs
    subst hcc
    exact ⟨hc, d, by simp, hds, hdc⟩
  | 1 => simp at h
  | n + 2 => simp at h

/-- Each event's action block keeps the persistence discipline: the only
persist (`repository.add_message`) of `_handle_adapter_event` happens in
the `agent.end` branch, with the non-empty final content, directly before
the corresponding publish. -/
theorem handleAdapterEvent_pip (sessionId now : String) (ev : AdapterEvent)
    (st : WorkerState) :
    persistImmediatelyPublished (handleAdapterEvent sessionId now ev st).1 := by
  unfold handleAdapterEvent
  simp only
  set et := (if ev.event = "" then "agent.chunk" else ev.event) with het
  split_ifs with h1 h2 h3 h4
  · exact pip_publish_single _ _
  · exact pip_publish_single _ _
  · exact pip_publish_single _ _
  · have hend : et = "agent.end" := by
      rcases h1.1 with h | h | h
      · exact absurd h h2
      · exact absurd h h3
      · exact h
    have hsender : ev.data.sender = some (ev.data.sender.getD "") := by
      rcases hs : ev.data.sender with _ | s'
      · have := h1.2
        rw [hs] at this
        simp at this
      · simp
    rw [hend]
    exact pip_persist_pair _ _ _ h4 hsender rfl
  · exact pip_publish_single _ _

/-- The flush blocks keep the persistence discipline too. -/
theorem flushOne_pip (sessionId now s : String) (t : Tracker) (db : Nat) :
    persistImmediatelyPublished (flushOne sessionId now s t db).1 := by
  unfold flushOne
  simp only
  split_ifs with h
  · exact pip_publish_single _ _
  · exact pip_persist_pair _ _ _ h rfl rfl

theorem flushAll_pip (sessionId now : String)
    (trackers : List (String × Tracker)) (db : Nat) :
    persistImmediatelyPublished (flushAll sessionId now trackers db) := by
  induction trackers generalizing db with
  | nil => exact pip_nil
  | cons p rest ih =>
    cases p with
    | mk s t => exact pip_append (flushOne_pip sessionId now s t db) (ih _)

theorem processEvents_pip (sessionId now : String)
    (events : List AdapterEvent) (st : WorkerState) :
    persistImmediatelyPublished (processEvents sessionId now events st).1 := by
  induction events generalizing st with
  | nil => exact pip_nil
  | cons ev rest ih =>
    exact pip_append (handleAdapterEvent_pip sessionId now ev st) (ih _)

/-- C2: over any adapter event stream, an agent message is persisted only
with non-empty content and only at the moment the corresponding
`agent.end` is published (the persist is immediately followed by the
`agent.end` publication with the same sender and content); and the
synthesized `agent.end` of the end-of-stream flush carries the
concatenated chunk buffer, carries the tracked message id, and is
preceded by a persist exactly when that buffer is non-empty. -/
theorem c2_persist_only_nonempty_at_agent_end (sessionId now : String)
    (events : List AdapterEvent) (hexSupply : List String) :
    persistImmediatelyPublished (runWorker sessionId now events hexSupply) ∧
      ∀ (s : String) (t : Tracker) (db : Nat), ∃ d : EventData,
        (flushOne sessionId now s t db).1 =
          (if String.join t.buffer = "" then []
            else [Action.persist s (String.join t.buffer)]) ++
          [Action.publish "agent.end" d] ∧
        d.sender = some s ∧ d.content = some (String.join t.buffer) ∧
        d.message_id = some t.id := by
  constructor
  · exact pip_append (processEvents_pip sessionId now events _)
      (flushAll_pip sessionId now _ _)
  · intro s t db
    unfold flushOne
    simp only
    split_ifs with h
    · exact ⟨_, rfl, rfl, rfl, rfl⟩
    · exact ⟨_, rfl, rfl, rfl, rfl⟩

/-- C2 witness: a stream that ends mid-message (no explicit `agent.end`);
the flush persists the concatenated buffer `"hi there"` and immediately
publishes the synthesized `agent.end`. -/
theorem c2_persist_witness :
    ∃ d : EventData,
      (runWorker "sess1" "T0"
        [agentStartEvent "Ada",
          { event := "agent.chunk",
            data := { sender := some "Ada", content := some "hi " } },
          { event := "agent.chunk",
            data := { sender := some "Ada", content := some "there" } }]
        ["deadbeef", "cafebabe", "12345678"])[3 + 1]? =
        some (Action.publish "agent.end" d) ∧
      d.sender = some "Ada" ∧ d.content = some "hi there" :=
  ((c2_persist_only_nonempty_at_agent_end "sess1" "T0"
    [agentStartEvent "Ada",
      { event := "agent.chunk",
        data := { sender := some "Ada", content := some "hi " } },
      { event := "agent.chunk",
        data := { sender := some "Ada", content := some "there" } }]
    ["deadbeef", "cafebabe", "12345678"]).1 3 "Ada" "hi there"
    (by decide)).2

/-! ## C5 / C10 — conversation-loop theorems -/

/-- With no registered personas the scheduler selects nobody: there are
no candidates, so the forced path, the threshold path, and the round-0
fallback all come up empty. -/
theorem nextTurn_personas_nil (st : SchedulerState) (tags : List String)
    (ls : Option String) (ium : Bool) (rand : List ℚ)
    (h : st.personas = []) : (nextTurn st tags ls ium rand).1 = [] := by
  simp [nextTurn, h, buildCandidates, selectFold, List.insertionSort]

/-- With no registered personas, every round breaks out of the loop
immediately, yielding nothing beyond what was already accumulated. -/
theorem loopRounds_no_personas (env : LoopEnv) (cfg : LoopConfig)
    (fuel roundIdx : Nat) (rs : RoundState)
    (h : rs.sched.personas = []) :
    loopRounds env cfg fuel roundIdx rs = (rs.events, rs.payloads) := by
  cases fuel with
  | zero => rfl
  | succ fuel =>
    rw [loopRounds]
    simp [nextTurn_personas_nil _ _ _ _ _ h]

/-- C5 (amended): when the owning user's persona settings contain no
personas, `invoke_stream` yields no events at all — in particular no
`session.stopped` — for every user message, history, configuration, and
behaviour of the external collaborators.  (The loop is driven by the
user-level persona list, not by the session participant list.) -/
theorem c5_no_personas_no_events (env : LoopEnv) (cfg : LoopConfig)
    (messageSender : Option String) (history : List HistEntry)
    (maxAgentsCfg configuredMaxExchanges : Int) (rand : List ℚ)
    (hpersonas : cfg.personas = []) :
    (invokeStreamRun env cfg messageSender history maxAgentsCfg
      configuredMaxExchanges rand).1 = [] := by
  unfold invokeStreamRun
  simp only
  rw [loopRounds_no_personas]
  simp [buildScheduler, hpersonas]

/-- A benign environment for concrete evaluations of the loop. -/
def envA : LoopEnv :=
  { personaStream := fun _ _ => Except.ok ["tok"]
    extractTags := fun _ => []
    closingDetect := fun _ => false
    smartStop := fun _ => false
    interrupt := fun _ => false }

/-- A session with an empty participant list but one configured persona:
`active_participants` is the fixed-up empty participant list, while the
scheduler is driven by the persona settings. -/
def cfgOne : LoopConfig :=
  { sessionId := "s"
    personas := [{ name := "Ada", handle := "ada", proactivity := 9/10 }]
    activeParticipants := mkActiveParticipants []
    userMessage := "hi"
    memoryWindow := 8
    softClosing := false
    userSelected := none
    contextTags := [] }

/-- C5 counterexample: the claim ties "yields no events" to an empty
session participant list, but `invoke_stream` builds its scheduler from
`persona_settings.personas` (the user's personas), ignoring
`session.participants` except for the prompt's participant block — so a
session with zero participants whose user has one persona still produces
events. -/
theorem c5_counterexample_empty_participants_still_speaks :
    (invokeStreamRun envA cfgOne none [] 2 8 [0]).1 ≠ [] ∧
      (invokeStreamRun envA cfgOne none [] 2 8 [0]).1[0]? =
        some (agentStartEvent "Ada") := by
  with_unfolding_all decide

/-- C5 witness: the amended statement evaluated on a concrete
configuration with an empty persona list. -/
theorem c5_no_personas_witness :
    (invokeStreamRun envA
      { sessionId := "s"
        personas := []
        activeParticipants := mkActiveParticipants []
        userMessage := "hi"
        memoryWindow := 8
        softClosing := false
        userSelected := none
        contextTags := [] } none [] 2 8 [0]).1 = [] :=
  c5_no_personas_no_events envA _ none [] 2 8 [0] rfl

/-- All payloads of a list carry at most one history entry. -/
def payloadsOk (l : List Payload) : Prop := ∀ pl ∈ l, pl.history.length ≤ 1

/-- Calling `as_payload(·, last_n=1)` returns at most one message. -/
theorem asPayload_last_one_length (msgs : List Message) (w : Int) :
    (asPayload msgs w (some 1)).length ≤ 1 := by
  unfold asPayload recent
  simp only
  rw [if_pos (by norm_num : (1 : Int) ≤ 1)]
  simp only [List.length_drop]
  omega

theorem continueSpeaker_payloads (env : LoopEnv) (acc : SpeakerAcc)
    (name : String) (payload : Payload) :
    (continueSpeaker env acc name payload).payloads =
      acc.payloads ++ [payload] := rfl

theorem stepSpeaker_payloads_ok (env : LoopEnv) (cfg : LoopConfig)
    (roundIdx : Nat) (acc : SpeakerAcc) (name : String)
    (h : payloadsOk acc.payloads) :
    payloadsOk (stepSpeaker env cfg roundIdx acc name).payloads := by
  unfold stepSpeaker
  simp only
  split_ifs with h1 h2
  · rw [continueSpeaker_payloads]
    intro pl hpl
    rcases List.mem_append.mp hpl with hpl | hpl
    · exact h pl hpl
    · have hp : pl = mkPayload cfg (personaIdOf cfg.personas name)
          acc.memory cfg.userMessage := by simpa using hpl
      rw [hp]
      exact asPayload_last_one_length acc.memory cfg.memoryWindow
  · exact h
  · rw [continueSpeaker_payloads]
    intro pl hpl
    rcases List.mem_append.mp hpl with hpl | hpl
    · exact h pl hpl
    · have hp : pl = mkPayload cfg (personaIdOf cfg.personas name)
          acc.memory ("你刚刚观察到 \"" ++ acc.last_speaker ++ "\" 说: \"" ++
            getLastMessage acc.memory ++
            "\"。现在轮到你发言，你可以对此进行评论，或开启新话题。") := by
        simpa using hpl
      rw [hp]
      exact asPayload_last_one_length acc.memory cfg.memoryWindow

theorem foldl_stepSpeaker_payloads_ok (env : LoopEnv) (cfg : LoopConfig)
    (roundIdx : Nat) (speakers : List String) (acc : SpeakerAcc)
    (h : payloadsOk acc.payloads) :
    payloadsOk ((speakers.foldl (stepSpeaker env cfg roundIdx) acc).payloads) := by
  induction speakers generalizing acc with
  | nil => exact h
  | cons x xs ih => exact ih _ (stepSpeaker_payloads_ok _ _ _ _ _ h)

theorem loopRounds_payloads_ok (env : LoopEnv) (cfg : LoopConfig)
    (fuel roundIdx : Nat) (rs : RoundState)
    (h : payloadsOk rs.payloads) :
    payloadsOk (loopRounds env cfg fuel roundIdx rs).2 := by
  induction fuel generalizing roundIdx rs with
  | zero => exact h
  | succ fuel ih =>
    rw [loopRounds]
    simp only
    split_ifs <;>
      first
        | exact h
        | exact ih _ _ h
        | exact foldl_stepSpeaker_payloads_ok _ _ _ _ _ h
        | exact ih _ _ (foldl_stepSpeaker_payloads_ok _ _ _ _ _ h)

/-- Dropping all but one element leaves exactly the last element. -/
theorem drop_length_sub_one_eq_getLast (msgs : List Message) :
    msgs.drop (msgs.length - 1) =
      (match msgs.getLast? with
        | some m => [m]
        | none => []) := by
  induction msgs with
  | nil => rfl
  | cons a l ih =>
    cases l with
    | nil => rfl
    | cons b l2 =>
      rw [List.getLast?_cons_cons]
      rw [show (a :: b :: l2).length - 1 = l2.length + 1 by simp]
      rw [List.drop_succ_cons]
      rw [show l2.length = (b :: l2).length - 1 by simp]
      exact ih

/-- Because the explicit `last_n` overrides the window,
`as_payload(w, last_n=1)` is exactly the most recent memory message,
whatever the configured `memory_window` is. -/
theorem asPayload_last_one_eq (msgs : List Message) (w : Int) :
    asPayload msgs w (some 1) =
      (match msgs.getLast? with
        | some m => [m]
        | none => []) := by
  unfold asPayload recent
  simp only
  rw [if_pos (by norm_num : (1 : Int) ≤ 1)]
  rw [show (1 : Int).toNat = 1 from rfl]
  exact drop_length_sub_one_eq_getLast msgs

/-- C10: every payload the conversation loop hands to the persona invoker
carries at most one history entry, regardless of the configured
`memory_window` — both payload branches call
`memory.as_payload(memory_window, last_n=1)`, and `last_n = 1` overrides
the window and selects exactly the single most recent memory message. -/
theorem c10_payload_history_single (env : LoopEnv) (cfg : LoopConfig)
    (messageSender : Option String) (history : List HistEntry)
    (maxAgentsCfg configuredMaxExchanges : Int) (rand : List ℚ) :
    (∀ pl ∈ (invokeStreamRun env cfg messageSender history maxAgentsCfg
        configuredMaxExchanges rand).2, pl.history.length ≤ 1) ∧
      ∀ (msgs : List Message) (w : Int),
        asPayload msgs w (some 1) =
          (match msgs.getLast? with
            | some m => [m]
            | none => []) := by
  constructor
  · intro pl hpl
    unfold invokeStreamRun at hpl
    exact loopRounds_payloads_ok env cfg _ 0 _ (by intro x hx; cases hx) pl hpl
  · exact asPayload_last_one_eq

/-- C10 witness: the first payload of a concrete run (configured window
`8`, one prior exchange) still carries a single history message. -/
theorem c10_payload_witness :
    ((invokeStreamRun envA cfgOne none [] 2 8 [0]).2.headD
      { history := [], user_message := "", persona_id := none,
        active_participants := [] }).history.length ≤ 1 :=
  (c10_payload_history_single envA cfgOne none [] 2 8 [0]).1 _
    (by with_unfolding_all decide)

end MulInOne
